import Mathlib

/-!
Verification of the strgen string-generator core (src/src/strgen/mod.rs)
against its natural-language specification.

Rust strings are modelled as Lean `String` (with character-level helpers on
`List Char`), machine integers as `Nat`, fallible operations (Rust panics,
I/O) as `Option` or `Except`, and the pseudo-random sources as explicit
streams of naturals passed to the functions that consume them.

The modules `grammar`, `modes`, `languages` and the utilities `RNG`,
`RNGWheel`, `read_lines` are referenced by mod.rs but their code is not part
of the repository snapshot; each is modelled from the specification and
marked as such in its doc comment.
-/

namespace Strgen

/-- ListType from mod.rs: classification of a word list. -/
inductive ListType where
  | Nouns
  | Adjectives
  | Names
deriving DecidableEq

/-- ListType::is_noun from mod.rs. -/
def ListType.is_noun : ListType → Bool
  | ListType.Nouns => true
  | _ => false

/-- Modelled from the spec: the languages module (not under src/) is a static
registry of languages, each carrying an alphabet, an abbreviation and a
German flag; unknown identifiers resolve to a documented fallback. -/
structure Languages where
  abbr : String
  alphabet : String
  isGerman : Bool
deriving DecidableEq

/-- Modelled from the spec: the English entry of the language registry,
used as the fallback for unknown identifiers. -/
def Languages.english : Languages :=
  { abbr := "en", alphabet := "abcdefghijklmnopqrstuvwxyz", isGerman := false }

/-- Modelled from the spec: the German entry of the language registry. -/
def Languages.german : Languages :=
  { abbr := "de", alphabet := "abcdefghijklmnopqrstuvwxyzäöüß", isGerman := true }

/-- Modelled from the spec: Languages::from, exact-match lookup with the
documented fallback for unknown identifiers. -/
def Languages.from_str (s : String) : Languages :=
  if s = "de" then Languages.german else Languages.english

/-- Languages::is_german accessor. -/
def Languages.is_german (l : Languages) : Bool := l.isGerman

/-- Modelled from the spec: the modes module (not under src/). The variant
set is exactly the one mod.rs dispatches on. -/
inductive Modes where
  | RandomLetters
  | RandomLettersFromCustomAlphabet
  | RandomLettersFromAlphabetFile
  | RandomWord
  | RandomWordFromListFile
  | CoupledWordsNouns
  | CoupledWordsNames
  | CoupledWordsListFiles
deriving DecidableEq

/-- Modelled from the spec: Modes::from maps a mode identifier to a variant,
unknown identifiers falling back to the default letters mode. The identifier
spellings are representative, the fallback is the documented one. -/
def Modes.from_str (s : String) : Modes :=
  if s = "customletters" then Modes.RandomLettersFromCustomAlphabet
  else if s = "lettersfile" then Modes.RandomLettersFromAlphabetFile
  else if s = "word" then Modes.RandomWord
  else if s = "wordfile" then Modes.RandomWordFromListFile
  else if s = "couplednouns" then Modes.CoupledWordsNouns
  else if s = "couplednames" then Modes.CoupledWordsNames
  else if s = "coupledfiles" then Modes.CoupledWordsListFiles
  else Modes.RandomLetters

/-- Config from mod.rs. -/
structure Config where
  mode : Modes
  length : Nat
  amount : Nat
  write_to_file : Bool
  next : String
deriving DecidableEq

/-- Config::new from mod.rs: positional argument parsing with defaults
amount = 16, length = 12, mode = RandomLetters, next = "", write_to_file
false; an unparseable number is fatal (modelled as none). -/
def Config.new (args : List String) : Option Config :=
  let amount? := if args.length > 1 then (args.get? 1).bind String.toNat? else some 16
  let length? := if args.length > 2 then (args.get? 2).bind String.toNat? else some 12
  match amount?, length? with
  | some amount, some length =>
    let mode := match args.get? 3 with
      | some a => Modes.from_str a
      | none => Modes.RandomLetters
    let next := match args.get? 4 with
      | some a => a
      | none => ""
    let write_to_file := match args.get? 5 with
      | some a => a == "1"
      | none => false
    some { mode := mode, length := length, amount := amount,
           write_to_file := write_to_file, next := next }
  | _, _ => none

/-- Rust str::split on a single character: always at least one part, empty
parts preserved (`"a,,b"` gives three parts, `""` gives one empty part). -/
def splitChar (sep : Char) : List Char → List (List Char)
  | [] => [[]]
  | c :: cs =>
    let rest := splitChar sep cs
    if c = sep then [] :: rest
    else
      match rest with
      | [] => [[c]]
      | t :: ts => (c :: t) :: ts

/-- splitChar never returns an empty list of parts. -/
theorem splitChar_ne_nil (sep : Char) (cs : List Char) : splitChar sep cs ≠ [] := by
  cases cs with
  | nil => simp [splitChar]
  | cons c cs =>
    simp only [splitChar]
    split
    · simp
    · split
      · simp
      · simp

/-- Rust str::split brought back to String. -/
def rustSplit (sep : Char) (s : String) : List String :=
  (splitChar sep s.toList).map (fun l => String.mk l)

/-- Rust str::trim: drop leading and trailing whitespace. -/
def trimChars (s : List Char) : List Char :=
  ((s.dropWhile Char.isWhitespace).reverse.dropWhile Char.isWhitespace).reverse

/-- Rust str::trim on String. -/
def rustTrim (s : String) : String := String.mk (trimChars s.toList)

/-- Rust slice indexing list[i]: an out-of-range index panics with an
index-out-of-bounds error. -/
def rustIndex {α : Type} (l : List α) (i : Nat) : Except String α :=
  match l.get? i with
  | some v => Except.ok v
  | none => Except.error "index out of bounds"

/-- Modelled from the spec: the RNG Wheel (not under src/) produces a finite
sequence of `length` pseudo-random values; the pseudo-random source itself is
an arbitrary stream of naturals. -/
def RNGWheel (stream : Nat → Nat) (length : Nat) : List Nat :=
  (List.range length).map stream

/-- RNGWheel produces exactly `length` values. -/
theorem RNGWheel_length (stream : Nat → Nat) (length : Nat) :
    (RNGWheel stream length).length = length := by
  simp [RNGWheel]

/-- LettterSequence from mod.rs (the misspelling is the source file own
spelling). held_string is modelled as the character list it holds. -/
structure LettterSequence where
  alphabet : List Char
  held_string : List Char
  length : Nat
deriving DecidableEq

/-- LettterSequence::new from mod.rs. -/
def LettterSequence.new (s : String) (length : Nat) : LettterSequence :=
  { alphabet := s.toList, held_string := [], length := length }

/-- LettterSequence::set_alphabet from mod.rs. -/
def LettterSequence.set_alphabet (g : LettterSequence) (s : String) : LettterSequence :=
  { g with alphabet := s.toList }

/-- The loop body of LettterSequence::get: for each drawn value, reduce it
modulo the alphabet size and append the indexed character. Rust `%` by zero
and out-of-range indexing panic, modelled as none (with an empty alphabet,
Lean `n % 0 = n` and lookup in `[]` fails, matching the panic). -/
def buildChars (alphabet : List Char) : List Nat → Option (List Char)
  | [] => some []
  | n :: rest =>
    match alphabet.get? (n % alphabet.length), buildChars alphabet rest with
    | some c, some cs => some (c :: cs)
    | _, _ => none

/-- LettterSequence::get from mod.rs: draw `length` values from a fresh RNG
Wheel, reduce each modulo the alphabet size, append the indexed character,
return the built string. -/
def LettterSequence.get (g : LettterSequence) (stream : Nat → Nat) :
    Option (List Char) :=
  buildChars g.alphabet (RNGWheel stream g.length)

/-- LettterSequence::setup from mod.rs; the contents of the alphabet file
(an input of the program) are passed explicitly. -/
def LettterSequence.setup (g : LettterSequence) (conf : Config)
    (fileContents : String) : LettterSequence :=
  match conf.mode with
  | Modes.RandomLettersFromCustomAlphabet => g.set_alphabet conf.next
  | Modes.RandomLettersFromAlphabetFile => g.set_alphabet fileContents
  | Modes.RandomLetters =>
      g.set_alphabet (Languages.from_str conf.next).alphabet
  | _ => g

/-- RandomWord from mod.rs. -/
structure RandomWord where
  list : List String
  list_type : ListType
  language : Languages
deriving DecidableEq

/-- RandomWord::new from mod.rs. -/
def RandomWord.new (list_type : ListType) (language : Languages) : RandomWord :=
  { list := [], list_type := list_type, language := language }

/-- RandomWord::add_word from mod.rs: push onto the list. -/
def RandomWord.add_word (w : RandomWord) (s : String) : RandomWord :=
  { w with list := w.list ++ [s] }

/-- RandomWord::get_file_name from mod.rs: derive the canonical list path
from the list type and the language abbreviation. -/
def RandomWord.get_file_name (w : RandomWord) : String :=
  let head := match w.list_type with
    | ListType.Nouns => "nouns"
    | ListType.Adjectives => "adjectives"
    | ListType.Names => "names"
  "./lists/" ++ head ++ "." ++ w.language.abbr ++ ".list"

/-- One line of RandomWord::fill: split on commas, skip tokens equal to ""
(the emptiness test precedes the trim, exactly as in mod.rs), append the trim
of each remaining token in order. -/
def fillLine (acc : List String) (line : String) : List String :=
  (rustSplit ',' line).foldl
    (fun acc chaz => if chaz = "" then acc else acc ++ [rustTrim chaz]) acc

/-- RandomWord::fill from mod.rs. read_lines is an out-of-scope utility; its
result is passed explicitly: none models a missing or unreadable file (the
Err case, silently tolerated), some ls the lines read. -/
def RandomWord.fill (w : RandomWord) (lines : Option (List String)) : RandomWord :=
  match lines with
  | none => w
  | some ls => { w with list := ls.foldl fillLine w.list }

/-- RandomWord::get from mod.rs, with the freshly seeded scalar RNG draw
passed explicitly: index = draw % list length. Rust `%` by zero panics,
modelled as none. -/
def RandomWord.get (w : RandomWord) (draw : Nat) : Option String :=
  if w.list.length = 0 then none
  else w.list.get? (draw % w.list.length)

/-- RandomWord::setup from mod.rs: every mode fills from a file, the list
file modes from conf.next, the rest from the canonical path; the file lines
are passed explicitly as for fill. -/
def RandomWord.setup (w : RandomWord) (conf : Config)
    (lines : Option (List String)) : RandomWord :=
  match conf.mode with
  | Modes.RandomWord => w.fill lines
  | Modes.RandomWordFromListFile => w.fill lines
  | _ => w.fill lines

/-- Modelled from the spec: the grammatical class of a German noun, used to
pick the adjective ending (grammar module, not under src/). -/
inductive NounClass where
  | masculine
  | feminine
  | neuter
deriving DecidableEq

/-- Modelled from the spec: GermanNounList (grammar module, not under src/),
a noun-to-class table populated by fill. -/
structure GermanNounList where
  table : List (String × NounClass)
deriving DecidableEq

/-- Modelled from the spec: GermanNounList::new, an empty table. -/
def GermanNounList.new : GermanNounList := { table := [] }

/-- Modelled from the spec: GermanNounList::fill populates the noun-to-class
table; representative entries. -/
def GermanNounList.fill (_l : GermanNounList) : GermanNounList :=
  { table := [("hund", NounClass.masculine), ("katze", NounClass.feminine),
              ("haus", NounClass.neuter)] }

/-- Modelled from the spec: the adjective ending selected for a grammatical
class. -/
def endingFor : NounClass → String
  | NounClass.masculine => "er"
  | NounClass.feminine => "e"
  | NounClass.neuter => "es"

/-- Modelled from the spec: look up the class of a noun, unknown nouns
falling to a documented default class. -/
def GermanNounList.classOf (l : GermanNounList) (noun : String) : NounClass :=
  match l.table.find? (fun p => p.fst == noun) with
  | some p => p.snd
  | none => NounClass.masculine

/-- Modelled from the spec: GermanNounList::get_adapted renders the adapted
compound of the noun and the adjective per a single joining rule with no
separator or hyphen: the inflected adjective directly followed by the noun. -/
def GermanNounList.get_adapted (l : GermanNounList) (noun adj : String) : String :=
  adj ++ endingFor (l.classOf noun) ++ noun

/-- CoupledWords from mod.rs. -/
structure CoupledWords where
  adjectives : RandomWord
  second_type : ListType
  language : Languages
  type_list : RandomWord
deriving DecidableEq

/-- CoupledWords::new from mod.rs. -/
def CoupledWords.new (second_type : ListType) (language : Languages) : CoupledWords :=
  { adjectives := RandomWord.new ListType.Adjectives language,
    second_type := second_type,
    language := language,
    type_list := RandomWord.new second_type language }

/-- CoupledWords::get from mod.rs, the two scalar RNG draws passed
explicitly: fill the German noun table when the language is German, draw one
word from each list, join with an underscore, except that German plus a Nouns
second list uses the adapted compound instead. A draw on an empty list
panics, hence Option. -/
def CoupledWords.get (g : CoupledWords) (draw1 draw2 : Nat) : Option String :=
  let nounlist := if g.language.is_german
    then GermanNounList.new.fill else GermanNounList.new
  match g.adjectives.get draw1, g.type_list.get draw2 with
  | some adj, some s2 =>
    some (if g.language.is_german && g.second_type.is_noun
          then nounlist.get_adapted s2 adj
          else adj ++ "_" ++ s2)
  | _, _ => none

/-- The CoupledWordsListFiles arm of CoupledWords::setup: split conf.next on
":" and take parts 0 and 1 by Rust slice indexing, which panics when out of
range. -/
def coupledSetupPaths (next : String) : Except String (String × String) :=
  let names := rustSplit ':' next
  match rustIndex names 0, rustIndex names 1 with
  | Except.ok a, Except.ok b => Except.ok (a, b)
  | Except.error e, _ => Except.error e
  | Except.ok _, Except.error e => Except.error e

/-- CoupledWords::setup from mod.rs; the lines read from the two list files
are passed explicitly as for RandomWord::fill. Returns the panic message when
the CoupledWordsListFiles arm indexes out of range. -/
def CoupledWords.setup (g : CoupledWords) (conf : Config)
    (adjLines typeLines : Option (List String)) : Except String CoupledWords :=
  match conf.mode with
  | Modes.CoupledWordsNouns =>
    Except.ok { g with adjectives := g.adjectives.fill adjLines,
                       type_list := g.type_list.fill typeLines }
  | Modes.CoupledWordsNames =>
    Except.ok { g with adjectives := g.adjectives.fill adjLines,
                       type_list := g.type_list.fill typeLines }
  | Modes.CoupledWordsListFiles =>
    match coupledSetupPaths conf.next with
    | Except.ok _ =>
      Except.ok { g with adjectives := g.adjectives.fill adjLines,
                         type_list := g.type_list.fill typeLines }
    | Except.error e => Except.error e
  | _ => Except.ok g

/-- The closed set of generator variants boxed by stringer. -/
inductive Generator where
  | letters (g : LettterSequence)
  | word (g : RandomWord)
  | coupled (g : CoupledWords)
deriving DecidableEq

/-- stringer from mod.rs: map the mode in the Config to a concrete
generator. -/
def stringer (conf : Config) : Generator :=
  match conf.mode with
  | Modes.RandomLetters => Generator.letters (LettterSequence.new "abc" 16)
  | Modes.RandomWord =>
    Generator.word (RandomWord.new ListType.Nouns (Languages.from_str conf.next))
  | Modes.RandomWordFromListFile =>
    Generator.word (RandomWord.new ListType.Nouns (Languages.from_str conf.next))
  | Modes.CoupledWordsNouns =>
    Generator.coupled (CoupledWords.new ListType.Nouns (Languages.from_str conf.next))
  | Modes.CoupledWordsNames =>
    Generator.coupled (CoupledWords.new ListType.Names (Languages.from_str conf.next))
  | Modes.CoupledWordsListFiles =>
    Generator.coupled (CoupledWords.new ListType.Names (Languages.from_str conf.next))
  | _ => Generator.letters (LettterSequence.new "abc" 16)

/-- The fixed output file name OUTPUT_NAME from run_generator. -/
def OUTPUT_NAME : String := "strings.textout"

/-- An observable I/O effect of run_generator: creating (truncating) a file,
writing one newline-delimited line to it, or printing one console line. -/
inductive IOEvent where
  | createFile (path : String)
  | writeFileLine (path : String) (s : String)
  | consoleLine (s : String)
deriving DecidableEq

/-- The StringGenerator capability as the driver uses it, over an explicit
generator state: setup once, then get per iteration. -/
structure GenM (σ : Type) where
  setup : Config → σ → σ
  get : σ → String × σ

/-- The generation loop of run_generator: n remaining iterations, current
zero-based index i; each iteration calls get once and emits one event,
a file line when write_to_file is set, else a console line string:index. -/
def runLoop {σ : Type} (get : σ → String × σ) (w : Bool) :
    Nat → Nat → σ → List IOEvent × σ
  | 0, _, st => ([], st)
  | n + 1, i, st =>
    let p := get st
    let ev := if w then IOEvent.writeFileLine OUTPUT_NAME p.fst
      else IOEvent.consoleLine (p.fst ++ ":" ++ toString i)
    let rest := runLoop get w n (i + 1) p.snd
    (ev :: rest.fst, rest.snd)

/-- run_generator from mod.rs as its trace of I/O events: build the
generator state handed in, invoke setup once, create the output file
(unconditionally, before the loop), then loop amount times from index 0. -/
def run_generator {σ : Type} (g : GenM σ) (conf : Config) (st : σ) :
    List IOEvent × σ :=
  let st1 := g.setup conf st
  let r := runLoop g.get conf.write_to_file conf.amount 0 st1
  (IOEvent.createFile OUTPUT_NAME :: r.fst, r.snd)

/-- The loop emits exactly one event per iteration. -/
theorem runLoop_length {σ : Type} (get : σ → String × σ) (w : Bool) :
    ∀ (n i : Nat) (st : σ), (runLoop get w n i st).fst.length = n := by
  intro n
  induction n with
  | zero => intro i st; rfl
  | succ n ih => intro i st; simp [runLoop, ih]

/-- With the write flag clear, every loop event is a console line. -/
theorem runLoop_console_shape {σ : Type} (get : σ → String × σ) :
    ∀ (n i : Nat) (st : σ), ∀ ev ∈ (runLoop get false n i st).fst,
      ∃ s, ev = IOEvent.consoleLine s := by
  intro n
  induction n with
  | zero => intro i st ev h; simp [runLoop] at h
  | succ n ih =>
    intro i st ev h
    simp only [runLoop, Bool.false_eq_true, if_false, List.mem_cons] at h
    rcases h with h | h
    · exact ⟨_, h⟩
    · exact ih (i + 1) (get st).snd ev h

/-- With the write flag set, every loop event is a line written to
OUTPUT_NAME. -/
theorem runLoop_file_shape {σ : Type} (get : σ → String × σ) :
    ∀ (n i : Nat) (st : σ), ∀ ev ∈ (runLoop get true n i st).fst,
      ∃ s, ev = IOEvent.writeFileLine OUTPUT_NAME s := by
  intro n
  induction n with
  | zero => intro i st ev h; simp [runLoop] at h
  | succ n ih =>
    intro i st ev h
    simp only [runLoop, if_true, List.mem_cons] at h
    rcases h with h | h
    · exact ⟨_, h⟩
    · exact ih (i + 1) (get st).snd ev h

/-- With the write flag clear, the j-th loop event is a console line tagged
with index i + j. -/
theorem runLoop_console_get {σ : Type} (get : σ → String × σ) :
    ∀ (n i j : Nat) (st : σ), j < n →
      ∃ s, ((runLoop get false n i st).fst).get? j
        = some (IOEvent.consoleLine (s ++ ":" ++ toString (i + j))) := by
  intro n
  induction n with
  | zero => intro i j st h; exact absurd h (Nat.not_lt_zero j)
  | succ n ih =>
    intro i j st h
    cases j with
    | zero =>
      refine ⟨(get st).fst, ?_⟩
      simp [runLoop]
    | succ j =>
      obtain ⟨s, hs⟩ := ih (i + 1) j (get st).snd (Nat.lt_of_succ_lt_succ h)
      refine ⟨s, ?_⟩
      have hi : i + 1 + j = i + (j + 1) := by omega
      simp only [runLoop, Bool.false_eq_true, if_false, List.get?]
      rw [← hi]
      exact hs

/-- With a non-empty alphabet, the loop body of LettterSequence::get never
panics and yields one in-alphabet character per drawn value. -/
theorem buildChars_spec (alphabet : List Char) (h : alphabet ≠ []) :
    ∀ nums : List Nat, ∃ out, buildChars alphabet nums = some out ∧
      out.length = nums.length ∧ ∀ c ∈ out, c ∈ alphabet := by
  intro nums
  induction nums with
  | nil => exact ⟨[], rfl, rfl, by simp⟩
  | cons n rest ih =>
    obtain ⟨out, hout, hlen, hmem⟩ := ih
    have hpos : 0 < alphabet.length := List.length_pos.mpr h
    have hidx : n % alphabet.length < alphabet.length := Nat.mod_lt n hpos
    have hc : alphabet.get? (n % alphabet.length)
        = some (alphabet.get ⟨n % alphabet.length, hidx⟩) :=
      List.get?_eq_get hidx
    refine ⟨alphabet.get ⟨n % alphabet.length, hidx⟩ :: out, ?_, ?_, ?_⟩
    · simp only [buildChars, hc, hout]
    · simp [hlen]
    · intro c hcmem
      rcases List.mem_cons.mp hcmem with h1 | h1
      · exact h1 ▸ List.get_mem alphabet _ hidx
      · exact hmem c h1

/-- With a non-empty alphabet, LettterSequence::get returns a string whose
character count is the length field and whose characters all come from the
alphabet. -/
theorem letter_get_spec (g : LettterSequence) (stream : Nat → Nat)
    (h : g.alphabet ≠ []) :
    ∃ out, g.get stream = some out ∧ out.length = g.length ∧
      ∀ c ∈ out, c ∈ g.alphabet := by
  obtain ⟨out, hout, hlen, hmem⟩ := buildChars_spec g.alphabet h (RNGWheel stream g.length)
  exact ⟨out, hout, by simpa [RNGWheel_length] using hlen, hmem⟩

/-- LettterSequence::setup never changes the length field. -/
theorem letter_setup_length (g : LettterSequence) (conf : Config)
    (contents : String) : (g.setup conf contents).length = g.length := by
  unfold LettterSequence.setup
  cases conf.mode <;> simp [LettterSequence.set_alphabet]

/-- With a non-empty list, RandomWord::get reduces the draw in bounds and
returns an element of the list. -/
theorem word_get_spec (w : RandomWord) (draw : Nat) (h : w.list ≠ []) :
    draw % w.list.length < w.list.length ∧
    ∃ s, w.get draw = some s ∧ s ∈ w.list := by
  have hpos : 0 < w.list.length := List.length_pos.mpr h
  have hidx : draw % w.list.length < w.list.length := Nat.mod_lt draw hpos
  refine ⟨hidx, w.list.get ⟨draw % w.list.length, hidx⟩, ?_, List.get_mem _ _ hidx⟩
  have hz : w.list.length ≠ 0 := Nat.pos_iff_ne_zero.mp hpos
  simp [RandomWord.get, hz, List.get?_eq_get hidx]

/-- What one comma-separated line contributes to the list: the tokens that
are non-empty before trimming, each trimmed, in order. -/
def lineTokens (line : String) : List String :=
  ((rustSplit ',' line).filter (fun t => t != "")).map rustTrim

/-- The token fold of RandomWord::fill appends exactly the trimmed
pre-trim-non-empty tokens. -/
theorem foldl_fillLine_token (toks : List String) (acc : List String) :
    toks.foldl (fun acc chaz => if chaz = "" then acc else acc ++ [rustTrim chaz]) acc
      = acc ++ ((toks.filter (fun t => t != "")).map rustTrim) := by
  induction toks generalizing acc with
  | nil => simp
  | cons t ts ih =>
    by_cases h : t = ""
    · subst h
      simp [List.foldl, ih, List.filter_cons]
    · have hb : (t != "") = true := by simp [bne_iff_ne, h]
      simp [List.foldl, h, ih, List.filter_cons, hb]

/-- fillLine appends exactly the line tokens. -/
theorem fillLine_eq (acc : List String) (line : String) :
    fillLine acc line = acc ++ lineTokens line :=
  foldl_fillLine_token (rustSplit ',' line) acc

/-- Folding fillLine over the lines appends the per-line tokens in file
order. -/
theorem foldl_fillLine (ls : List String) (acc : List String) :
    ls.foldl fillLine acc = acc ++ (ls.map lineTokens).flatten := by
  induction ls generalizing acc with
  | nil => simp
  | cons l ls ih => simp [List.foldl, fillLine_eq, ih]

/-- RandomWord::fill on readable lines appends every line token, preserving
file and in-line order. -/
theorem fill_some_eq (w : RandomWord) (ls : List String) :
    (w.fill (some ls)).list = w.list ++ (ls.map lineTokens).flatten :=
  foldl_fillLine ls w.list

/-- The adjective endings of the modelled adaptation contain no
underscore. -/
theorem endingFor_no_underscore (c : NounClass) : '_' ∉ (endingFor c).data := by
  cases c <;> decide

/-- The adapted compound introduces no separator: it contains an underscore
only if the noun or the adjective does. -/
theorem get_adapted_no_underscore (l : GermanNounList) (noun adj : String)
    (hn : '_' ∉ noun.data) (ha : '_' ∉ adj.data) :
    '_' ∉ (l.get_adapted noun adj).data := by
  simp only [GermanNounList.get_adapted, String.data_append, List.mem_append, not_or]
  exact ⟨⟨ha, endingFor_no_underscore (l.classOf noun)⟩, hn⟩

/-- The Config produced from an argument list with no options: every field
at its default. -/
def defaultConfig : Config :=
  { mode := Modes.RandomLetters, length := 12, amount := 16,
    write_to_file := false, next := "" }

/-- A concrete two-element word list, for witnesses. -/
def sampleWords : RandomWord :=
  ((RandomWord.new ListType.Nouns Languages.english).add_word "alpha").add_word "beta"

/-- A concrete non-German coupled generator with singleton lists, for
witnesses. -/
def englishCoupled : CoupledWords :=
  { CoupledWords.new ListType.Names Languages.english with
    adjectives := (RandomWord.new ListType.Adjectives Languages.english).add_word "swift",
    type_list := (RandomWord.new ListType.Names Languages.english).add_word "alice" }

/-- A concrete German coupled generator over a Nouns second list with
singleton lists, for witnesses. -/
def germanCoupled : CoupledWords :=
  { CoupledWords.new ListType.Nouns Languages.german with
    adjectives := (RandomWord.new ListType.Adjectives Languages.german).add_word "schnell",
    type_list := (RandomWord.new ListType.Nouns Languages.german).add_word "hund" }

/-- A concrete driver generator whose state is a counter, for witnesses. -/
def constGen : GenM Nat :=
  { setup := fun _ st => st, get := fun st => ("x", st + 1) }

/-- C1: in CoupledWordsListFiles mode, an auxiliary string without a colon
splits into a single part, and setup indexes names[1] out of range: the run
dies with an index-out-of-bounds panic, not with the descriptive error the
specification requires. -/
theorem C1_listfiles_setup_panics_out_of_bounds :
    rustSplit ':' "justonepath" = ["justonepath"] ∧
    (CoupledWords.new ListType.Names Languages.english).setup
      { mode := Modes.CoupledWordsListFiles, length := 12, amount := 16,
        write_to_file := false, next := "justonepath" } none none
      = Except.error "index out of bounds" :=
  ⟨rfl, rfl⟩

/-- C2: for every non-empty alphabet and every value of the length field,
LettterSequence::get returns a string of exactly length-field many
characters, each a member of the alphabet. -/
theorem C2_letter_sequence_length_and_membership (g : LettterSequence)
    (stream : Nat → Nat) (h : g.alphabet ≠ []) :
    ∃ out, g.get stream = some out ∧ out.length = g.length ∧
      ∀ c ∈ out, c ∈ g.alphabet :=
  letter_get_spec g stream h

/-- C2 witness: the property instantiated on the alphabet "ab" with length
three and the identity stream. -/
theorem C2_letter_sequence_witness :
    ∃ out, (LettterSequence.new "ab" 3).get id = some out ∧
      out.length = (LettterSequence.new "ab" 3).length ∧
      ∀ c ∈ out, c ∈ (LettterSequence.new "ab" 3).alphabet :=
  C2_letter_sequence_length_and_membership (LettterSequence.new "ab" 3) id (by decide)

/-- C3 counterexample: with the default Config (mode letters, length 12),
stringer hardcodes a letter generator of length 16, and the produced string
has 16 characters, not the Config's 12. -/
theorem C3_counterexample_length_ignored :
    Config.new ["strgen"] = some defaultConfig ∧
    defaultConfig.length = 12 ∧
    stringer defaultConfig = Generator.letters (LettterSequence.new "abc" 16) ∧
    ((LettterSequence.new "abc" 16).setup defaultConfig "").get (fun _ => 0)
      = some (List.replicate 16 'a') ∧
    (List.replicate 16 'a').length ≠ defaultConfig.length := by
  exact ⟨by decide, rfl, rfl, by decide, by decide⟩

/-- C3 amended: for every Config in a letters mode, the driver constructs
the letter generator with the hardcoded length 16 — the Config length field
is ignored — and whenever setup leaves a non-empty alphabet the produced
string has exactly 16 characters. -/
theorem C3_amended_letters_length_sixteen (conf : Config) (stream : Nat → Nat)
    (contents : String)
    (hmode : conf.mode = Modes.RandomLetters ∨
             conf.mode = Modes.RandomLettersFromCustomAlphabet ∨
             conf.mode = Modes.RandomLettersFromAlphabetFile) :
    ∃ g, stringer conf = Generator.letters g ∧ g.length = 16 ∧
      ((g.setup conf contents).alphabet ≠ [] →
        ∃ out, (g.setup conf contents).get stream = some out ∧ out.length = 16) := by
  have hg : stringer conf = Generator.letters (LettterSequence.new "abc" 16) := by
    rcases hmode with h | h | h <;> simp [stringer, h]
  refine ⟨LettterSequence.new "abc" 16, hg, rfl, ?_⟩
  intro hne
  obtain ⟨out, hout, hlen, -⟩ :=
    letter_get_spec ((LettterSequence.new "abc" 16).setup conf contents) stream hne
  refine ⟨out, hout, ?_⟩
  rw [hlen, letter_setup_length]
  rfl

/-- C3 amended witness: the amended property instantiated on the default
Config, the identity stream and empty file contents. -/
theorem C3_amended_witness :
    ∃ g, stringer defaultConfig = Generator.letters g ∧ g.length = 16 ∧
      ((g.setup defaultConfig "").alphabet ≠ [] →
        ∃ out, (g.setup defaultConfig "").get id = some out ∧ out.length = 16) :=
  C3_amended_letters_length_sixteen defaultConfig id "" (Or.inl rfl)

/-- C4 counterexample: on the line "foo, , bar" the middle token is a
single space, not empty, so it survives the pre-trim emptiness test and is
appended as the empty string — fill does append an empty string. -/
theorem C4_counterexample_whitespace_token :
    ((RandomWord.new ListType.Nouns Languages.english).fill
      (some ["foo, , bar"])).list = ["foo", "", "bar"] := by
  decide

/-- C4 amended: fill splits each line on commas, discards only the tokens
that are empty before trimming, and appends the trim of each remaining token
preserving file and in-line order (so a whitespace-only token is appended as
an empty string); on the single line "foo, bar ,, baz" the result is exactly
["foo","bar","baz"]. -/
theorem C4_amended_fill_tokens (w : RandomWord) (ls : List String) :
    (w.fill (some ls)).list = w.list ++ (ls.map lineTokens).flatten ∧
    ((RandomWord.new ListType.Nouns Languages.english).fill
      (some ["foo, bar ,, baz"])).list = ["foo", "bar", "baz"] :=
  ⟨fill_some_eq w ls, by decide⟩

/-- C5: a missing or unreadable word-list file is tolerated by fill, which
leaves the list empty, and a subsequent get on the empty list dies in the
modulo-by-zero reduction instead of returning a string. -/
theorem C5_missing_file_soft_fail_then_get_fails (t : ListType)
    (lang : Languages) (draw : Nat) :
    ((RandomWord.new t lang).fill none).list.length = 0 ∧
    ((RandomWord.new t lang).fill none).get draw = none :=
  ⟨rfl, rfl⟩

/-- C6: for every RandomWord with a non-empty list, get reduces the draw
modulo the list length, the index is in bounds, and the returned string is
an element of the list. -/
theorem C6_word_get_in_bounds (w : RandomWord) (draw : Nat) (h : w.list ≠ []) :
    draw % w.list.length < w.list.length ∧
    ∃ s, w.get draw = some s ∧ s ∈ w.list :=
  word_get_spec w draw h

/-- C6 witness: the property instantiated on a two-element list with draw
seven. -/
theorem C6_word_get_witness :
    7 % sampleWords.list.length < sampleWords.list.length ∧
    ∃ s, sampleWords.get 7 = some s ∧ s ∈ sampleWords.list :=
  C6_word_get_in_bounds sampleWords 7 (by decide)

/-- C7: for every coupled generator whose language is not German and whose
lists are non-empty, get returns exactly the adjective draw and the second
draw joined by a single underscore. -/
theorem C7_non_german_coupling_underscore (g : CoupledWords) (d1 d2 : Nat)
    (hg : g.language.is_german = false)
    (h1 : g.adjectives.list ≠ []) (h2 : g.type_list.list ≠ []) :
    ∃ adj s2, adj ∈ g.adjectives.list ∧ s2 ∈ g.type_list.list ∧
      g.get d1 d2 = some (adj ++ "_" ++ s2) := by
  obtain ⟨-, adj, hadj, hadjm⟩ := word_get_spec g.adjectives d1 h1
  obtain ⟨-, s2, hs2, hs2m⟩ := word_get_spec g.type_list d2 h2
  refine ⟨adj, s2, hadjm, hs2m, ?_⟩
  simp [CoupledWords.get, hadj, hs2, hg]

/-- C7 witness: the property instantiated on an English pair of singleton
lists. -/
theorem C7_non_german_witness :
    ∃ adj s2, adj ∈ englishCoupled.adjectives.list ∧
      s2 ∈ englishCoupled.type_list.list ∧
      englishCoupled.get 0 0 = some (adj ++ "_" ++ s2) :=
  C7_non_german_coupling_underscore englishCoupled 0 0 (by decide) (by decide) (by decide)

/-- C8: for every coupled generator whose language is German and whose
second list holds nouns, both lists non-empty and underscore-free, get
returns the adapted compound of the drawn noun and adjective, and that
compound contains no underscore. -/
theorem C8_german_noun_coupling_adapted (g : CoupledWords) (d1 d2 : Nat)
    (hg : g.language.is_german = true) (hn : g.second_type.is_noun = true)
    (h1 : g.adjectives.list ≠ []) (h2 : g.type_list.list ≠ [])
    (hadj : ∀ a ∈ g.adjectives.list, '_' ∉ a.data)
    (hs : ∀ s ∈ g.type_list.list, '_' ∉ s.data) :
    ∃ adj s2, adj ∈ g.adjectives.list ∧ s2 ∈ g.type_list.list ∧
      g.get d1 d2 = some (GermanNounList.new.fill.get_adapted s2 adj) ∧
      '_' ∉ (GermanNounList.new.fill.get_adapted s2 adj).data := by
  obtain ⟨-, adj, hadjg, hadjm⟩ := word_get_spec g.adjectives d1 h1
  obtain ⟨-, s2, hs2g, hs2m⟩ := word_get_spec g.type_list d2 h2
  refine ⟨adj, s2, hadjm, hs2m, ?_, ?_⟩
  · simp [CoupledWords.get, hadjg, hs2g, hg, hn]
  · exact get_adapted_no_underscore _ s2 adj (hs s2 hs2m) (hadj adj hadjm)

/-- C8 witness: the property instantiated on the German pair schnell and
hund. -/
theorem C8_german_noun_witness :
    ∃ adj s2, adj ∈ germanCoupled.adjectives.list ∧
      s2 ∈ germanCoupled.type_list.list ∧
      germanCoupled.get 0 0 = some (GermanNounList.new.fill.get_adapted s2 adj) ∧
      '_' ∉ (GermanNounList.new.fill.get_adapted s2 adj).data :=
  C8_german_noun_coupling_adapted germanCoupled 0 0 (by decide) (by decide)
    (by decide) (by decide) (by decide) (by decide)

/-- C9: a successful run emits exactly amount results after the initial
file creation — all file lines when the write flag is set, otherwise the
j-th console line is string:j with a zero-based index. -/
theorem C9_driver_emits_amount {σ : Type} (g : GenM σ) (conf : Config) (st : σ) :
    ((run_generator g conf st).fst.tail).length = conf.amount ∧
    (conf.write_to_file = true →
      ∀ ev ∈ (run_generator g conf st).fst.tail,
        ∃ s, ev = IOEvent.writeFileLine OUTPUT_NAME s) ∧
    (conf.write_to_file = false →
      ∀ j, j < conf.amount →
        ∃ s, ((run_generator g conf st).fst.tail).get? j
          = some (IOEvent.consoleLine (s ++ ":" ++ toString j))) := by
  refine ⟨?_, ?_, ?_⟩
  · show (runLoop g.get conf.write_to_file conf.amount 0 (g.setup conf st)).fst.length
      = conf.amount
    exact runLoop_length g.get conf.write_to_file conf.amount 0 (g.setup conf st)
  · intro hw ev hev
    have hev2 : ev ∈ (runLoop g.get conf.write_to_file conf.amount 0 (g.setup conf st)).fst :=
      hev
    rw [hw] at hev2
    exact runLoop_file_shape g.get conf.amount 0 (g.setup conf st) ev hev2
  · intro hw j hj
    show ∃ s, ((runLoop g.get conf.write_to_file conf.amount 0 (g.setup conf st)).fst).get? j
      = some (IOEvent.consoleLine (s ++ ":" ++ toString j))
    rw [hw]
    simpa using runLoop_console_get g.get conf.amount 0 j (g.setup conf st) hj

/-- C9 witness: the property instantiated on a counter generator and the
default Config (amount sixteen, console output). -/
theorem C9_driver_witness :
    ((run_generator constGen defaultConfig 0).fst.tail).length = defaultConfig.amount ∧
    (defaultConfig.write_to_file = true →
      ∀ ev ∈ (run_generator constGen defaultConfig 0).fst.tail,
        ∃ s, ev = IOEvent.writeFileLine OUTPUT_NAME s) ∧
    (defaultConfig.write_to_file = false →
      ∀ j, j < defaultConfig.amount →
        ∃ s, ((run_generator constGen defaultConfig 0).fst.tail).get? j
          = some (IOEvent.consoleLine (s ++ ":" ++ toString j))) :=
  C9_driver_emits_amount constGen defaultConfig 0

/-- C10: every run creates (truncates) strings.textout as its very first
effect, before the generation loop, even in a run whose write flag is clear
and whose remaining effects are all console lines. -/
theorem C10_output_file_created_before_loop {σ : Type} (g : GenM σ)
    (conf : Config) (st : σ) :
    (run_generator g conf st).fst.head? = some (IOEvent.createFile OUTPUT_NAME) ∧
    (conf.write_to_file = false →
      ∀ ev ∈ (run_generator g conf st).fst.tail, ∃ s, ev = IOEvent.consoleLine s) := by
  refine ⟨rfl, ?_⟩
  intro hw ev hev
  have hev2 : ev ∈ (runLoop g.get conf.write_to_file conf.amount 0 (g.setup conf st)).fst :=
    hev
  rw [hw] at hev2
  exact runLoop_console_shape g.get conf.amount 0 (g.setup conf st) ev hev2

/-- C10 witness: the property instantiated on a counter generator and the
default console-only Config. -/
theorem C10_output_file_witness :
    (run_generator constGen defaultConfig 0).fst.head?
      = some (IOEvent.createFile OUTPUT_NAME) ∧
    (defaultConfig.write_to_file = false →
      ∀ ev ∈ (run_generator constGen defaultConfig 0).fst.tail,
        ∃ s, ev = IOEvent.consoleLine s) :=
  C10_output_file_created_before_loop constGen defaultConfig 0

end Strgen
